import Mathlib

/-!
# qtlformer — verification of the discovery-and-validation engine

Shallow embedding of `src/bin/src/qtlformer/__init__.py` (object-store
variant) and `src/tools/src/qtlformer/__init__.py` (local-path variant).
The storage backend (`fsspec` filesystem) is modelled as a record of its
two capabilities used by the core: `ls` and an existence test.  Python
exceptions are modelled with `Except`; a caught exception becomes an
`Option` at the catch site.  `ThreadPoolExecutor.map` collects results
into input-indexed slots; it is modelled by `poolMapSlots`, parametric in
the order in which the worker tasks complete.
-/

/-- Python `path.split("/")` semantics over a character list:
splitting on a separator always yields at least one (possibly empty)
piece, and keeps empty pieces between adjacent separators. -/
def splitOnChar (c : Char) : List Char → List (List Char)
  | [] => [[]]
  | x :: xs =>
    let rest := splitOnChar c xs
    if x = c then [] :: rest
    else
      match rest with
      | r :: rs => (x :: r) :: rs
      | [] => [[x]]

/-- Embeds Python `s.split("/")`. -/
def pySplitSlash (s : String) : List String :=
  (splitOnChar '/' s.toList).map (fun l => String.mk l)

/-- Embeds Python `"/".join(parts)`. -/
def joinSlash : List String → String
  | [] => ""
  | [x] => x
  | x :: y :: xs => x ++ "/" ++ joinSlash (y :: xs)

/-- Embeds Python `path.split("/")[-1]` (the list returned by `split` is
never empty, so `[-1]` is total). -/
def lastSegment (path : String) : String :=
  (pySplitSlash path).getLastD ""

/-- Embeds Python `"/".join(p.split("/")[-3:])`: the final three
slash-separated segments (the whole string when it has fewer). -/
def lastThreeSegments (s : String) : String :=
  let parts := pySplitSlash s
  joinSlash (parts.drop (parts.length - 3))

/-- Embeds Python `re.fullmatch(r"^QTD\d+$", s)` (resp. `QTS`): the whole
string is the tag followed by one or more digits.  `fullmatch` anchors at
both ends, so substring occurrences are rejected; digits are taken as
ASCII `0-9`. -/
def fullmatchTagDigits (tag : List Char) (s : String) : Bool :=
  let cs := s.toList
  (cs.take tag.length == tag) && !(cs.drop tag.length).isEmpty
    && (cs.drop tag.length).all Char.isDigit

/-- The dataset-identifier pattern `^QTD\d+$`. -/
def matchQTD (s : String) : Bool := fullmatchTagDigits ['Q', 'T', 'D'] s

/-- The study-identifier pattern `^QTS\d+$`. -/
def matchQTS (s : String) : Bool := fullmatchTagDigits ['Q', 'T', 'S'] s

/-- Embeds the exception class `DatasetOrStudyNameError`. -/
structure DatasetOrStudyNameError where
  msg : String
deriving Repr, DecidableEq

/-- Embeds `validate_name(name, pattern)`.  The compiled-regex fullmatch
test against the pattern string is abstracted as the Boolean predicate
`pattern`; the two instantiations used by the program are `matchQTD` and
`matchQTS`. -/
def validate_name (name : String) (pattern : String → Bool) :
    Except DatasetOrStudyNameError String :=
  if name = "" then
    .error ⟨"Name has to be a non-empty string."⟩
  else if pattern name then
    .ok name
  else
    .error ⟨"Name does not match pattern."⟩

/-- The storage backend capabilities consumed by the core (fsspec
`filesystem(...)`): listing immediate children and an existence test. -/
structure FS where
  ls : String → List String
  fsExists : String → Bool

/-- Embeds the dataclass `QTLDataset`. -/
structure QTLDataset where
  id : String
  susie_cs_path : String
  susie_lbf_path : String
deriving Repr, DecidableEq

/-- Embeds `QTLDataset._validate_name`. -/
def QTLDataset._validate_name (name : String) :
    Except DatasetOrStudyNameError String :=
  validate_name name matchQTD

/-- Embeds `QTLDataset.from_path` (object-store variant), instrumented
with the trace of paths passed to `fs.exists`.  The Python condition
`not fs.exists(cs) or not fs.exists(lbf)` short-circuits: the second
existence query is issued only when the first artifact exists. -/
def QTLDataset.fromPathT (fs : FS) (path : String) :
    Option QTLDataset × List String :=
  match QTLDataset._validate_name (lastSegment path) with
  | .error _ => (none, [])
  | .ok dataset_id =>
    let susie_cs_path := path ++ "/" ++ dataset_id ++ ".credible_sets.parquet"
    let susie_lbf_path := path ++ "/" ++ dataset_id ++ ".lbf_variable.parquet"
    if !fs.fsExists susie_cs_path then
      (none, [susie_cs_path])
    else if !fs.fsExists susie_lbf_path then
      (none, [susie_cs_path, susie_lbf_path])
    else
      (some ⟨dataset_id, susie_cs_path, susie_lbf_path⟩,
        [susie_cs_path, susie_lbf_path])

/-- Embeds `QTLDataset.from_path` (object-store variant): the resolution
outcome, `none` standing for Python `None`. -/
def QTLDataset.from_path (fs : FS) (path : String) : Option QTLDataset :=
  (QTLDataset.fromPathT fs path).1

/-- Embeds `QTLDataset.from_path` of the local-path variant
(`src/tools`): identical resolution, but the two artifact paths stored in
the constructed dataset are truncated to their final three
slash-separated segments. -/
def QTLDataset.from_path_local (fs : FS) (path : String) :
    Option QTLDataset :=
  match QTLDataset._validate_name (lastSegment path) with
  | .error _ => none
  | .ok dataset_id =>
    let susie_cs_path := path ++ "/" ++ dataset_id ++ ".credible_sets.parquet"
    let susie_lbf_path := path ++ "/" ++ dataset_id ++ ".lbf_variable.parquet"
    if !fs.fsExists susie_cs_path then
      none
    else if !fs.fsExists susie_lbf_path then
      none
    else
      some ⟨dataset_id, lastThreeSegments susie_cs_path,
        lastThreeSegments susie_lbf_path⟩

/-- Embeds the dataclass `QTLStudy`. -/
structure QTLStudy where
  id : String
  path : String
  datasets : List QTLDataset
deriving Repr, DecidableEq

/-- Embeds `QTLStudy._validate_name`. -/
def QTLStudy._validate_name (name : String) :
    Except DatasetOrStudyNameError String :=
  validate_name name matchQTS

/-- Embeds `QTLStudy.from_path`: the naming error is NOT caught here, it
propagates to the caller. -/
def QTLStudy.from_path (path : String) :
    Except DatasetOrStudyNameError QTLStudy :=
  match QTLStudy._validate_name (lastSegment path) with
  | .error e => .error e
  | .ok study_id => .ok ⟨study_id, path, []⟩

/-- Embeds `QTLStudy.get_datasets`: list the study's children, resolve
each sequentially, keep the non-`None` results in order. -/
def QTLStudy.get_datasets (fs : FS) (self : QTLStudy) : QTLStudy :=
  { self with
    datasets :=
      ((fs.ls self.path).map (QTLDataset.from_path fs)).filterMap (fun o => o) }

/-- Embeds the dataclass `QTLManifest` (the cached `df` field is the pure
function `transform` of `studies`). -/
structure QTLManifest where
  studies : List QTLStudy
deriving Repr, DecidableEq

/-- Embeds the inner closure `_prepare_study_for_path` of
`QTLManifest.from_gcs_path`: the study resolver followed by dataset
population, with `DatasetOrStudyNameError` caught and turned into `None`. -/
def _prepare_study_for_path (fs : FS) (p : String) : Option QTLStudy :=
  match QTLStudy.from_path p with
  | .ok study => some (study.get_datasets fs)
  | .error _ => none

/-- Embeds `QTLManifest.from_gcs_path`: list the root, fan the study
preparation out over the children (`ThreadPoolExecutor.map` yields
results in input order), drop the `None` outcomes. -/
def QTLManifest.from_gcs_path (fs : FS) (gcs_path : String) : QTLManifest :=
  ⟨((fs.ls gcs_path).map (_prepare_study_for_path fs)).filterMap (fun o => o)⟩

/-- Embeds `QTLManifest.transform`: one record per (study, dataset) pair.
A record is modelled as its association list in Python dict insertion
order, which is the column order `pandas.DataFrame.from_records` derives. -/
def QTLManifest.transform (m : QTLManifest) : List (List (String × String)) :=
  m.studies.flatMap fun study =>
    study.datasets.map fun dataset =>
      [("study_id", study.id), ("dataset_id", dataset.id),
       ("susie_cs_path", dataset.susie_cs_path),
       ("susie_lbf_path", dataset.susie_lbf_path)]

/-- One completed worker task of the `ThreadPoolExecutor.map` model: task
`i` writes `f (xs[i])` into the result slot of index `i`. -/
def poolStep {α β : Type} (f : α → β) (xs : List α)
    (acc : List (Option β)) (i : Nat) : List (Option β) :=
  match xs[i]? with
  | some x => acc.set i (some (f x))
  | none => acc

/-- Model of `ThreadPoolExecutor.map` result collection: the worker tasks
complete in the sequence `order`, each writing into its own input-indexed
slot.  Slots start unfilled (`none`). -/
def poolMapSlots {α β : Type} (f : α → β) (xs : List α) (order : List Nat) :
    List (Option β) :=
  order.foldl (poolStep f xs) (List.replicate xs.length none)

/-- The results read back from the slots after the pool has run. -/
def poolMapCollect {α β : Type} (f : α → β) (xs : List α)
    (order : List Nat) : List β :=
  (poolMapSlots f xs order).filterMap (fun o => o)

deriving instance DecidableEq for Except

/-- A small concrete storage backend: two complete studies, one invalidly
named child, one study with no children, and one dataset (`QTD2`) with a
missing second artifact. -/
def demoFS : FS where
  ls := fun p =>
    if p = "root" then ["root/QTS1", "root/bad", "root/QTS2", "root/QTS9"]
    else if p = "root/QTS1" then ["root/QTS1/QTD1", "root/QTS1/QTD2"]
    else if p = "root/QTS2" then ["root/QTS2/QTD3"]
    else []
  fsExists := fun p =>
    ["root/QTS1/QTD1/QTD1.credible_sets.parquet",
     "root/QTS1/QTD1/QTD1.lbf_variable.parquet",
     "root/QTS1/QTD2/QTD2.credible_sets.parquet",
     "root/QTS2/QTD3/QTD3.credible_sets.parquet",
     "root/QTS2/QTD3/QTD3.lbf_variable.parquet"].contains p

/-- A uniform concrete backend: 2 studies × 2 datasets, every artifact
present. -/
def uniformFS : FS where
  ls := fun p =>
    if p = "root" then ["root/QTS1", "root/QTS2"]
    else if p = "root/QTS1" then ["root/QTS1/QTD1", "root/QTS1/QTD2"]
    else if p = "root/QTS2" then ["root/QTS2/QTD3", "root/QTS2/QTD4"]
    else []
  fsExists := fun _ => true

/-- A backend on which every existence query answers `false`. -/
def absentFS : FS where
  ls := fun _ => []
  fsExists := fun _ => false

/-! ### Helper lemmas -/
theorem validate_name_ok_iff {s r : String} {pat : String → Bool} :
    validate_name s pat = .ok r ↔ (r = s ∧ s ≠ "" ∧ pat s = true) := by
  constructor
  · intro hok
    unfold validate_name at hok
    split at hok
    next hemp => exact Except.noConfusion hok
    next hemp =>
      split at hok
      next hp =>
        injection hok with h2
        exact ⟨h2.symm, hemp, hp⟩
      next hp => exact Except.noConfusion hok
  · rintro ⟨rfl, hemp, hp⟩
    unfold validate_name
    rw [if_neg hemp, if_pos hp]

theorem validate_name_error_iff {s : String} {pat : String → Bool} :
    (∃ e, validate_name s pat = .error e) ↔ (s = "" ∨ pat s = false) := by
  unfold validate_name
  split
  · simp_all
  · split <;> simp_all

theorem matchQTD_empty : matchQTD "" = false := rfl

theorem matchQTS_empty : matchQTS "" = false := rfl

theorem validate_name_matchQTS_ok_iff {s r : String} :
    validate_name s matchQTS = .ok r ↔ (r = s ∧ matchQTS s = true) := by
  rw [validate_name_ok_iff]
  constructor
  · rintro ⟨h1, _, h3⟩; exact ⟨h1, h3⟩
  · rintro ⟨h1, h2⟩
    refine ⟨h1, ?_, h2⟩
    rintro rfl
    rw [matchQTS_empty] at h2
    exact Bool.noConfusion h2

theorem validate_name_matchQTD_ok_iff {s r : String} :
    validate_name s matchQTD = .ok r ↔ (r = s ∧ matchQTD s = true) := by
  rw [validate_name_ok_iff]
  constructor
  · rintro ⟨h1, _, h3⟩; exact ⟨h1, h3⟩
  · rintro ⟨h1, h2⟩
    refine ⟨h1, ?_, h2⟩
    rintro rfl
    rw [matchQTD_empty] at h2
    exact Bool.noConfusion h2

theorem filterMap_id_map {α β : Type} (f : α → Option β) (l : List α) :
    (l.map f).filterMap (fun o => o) = l.filterMap f := by
  rw [List.filterMap_map]
  rfl

theorem get_datasets_eq (fs : FS) (s : QTLStudy) :
    s.get_datasets fs
      = ⟨s.id, s.path, (fs.ls s.path).filterMap (QTLDataset.from_path fs)⟩ := by
  have h := filterMap_id_map (QTLDataset.from_path fs) (fs.ls s.path)
  unfold QTLStudy.get_datasets
  rw [h]

theorem from_gcs_path_studies (fs : FS) (root : String) :
    (QTLManifest.from_gcs_path fs root).studies
      = (fs.ls root).filterMap (_prepare_study_for_path fs) := by
  show ((fs.ls root).map (_prepare_study_for_path fs)).filterMap (fun o => o) = _
  exact filterMap_id_map _ _

theorem study_from_path_ok_iff {p : String} {st : QTLStudy} :
    QTLStudy.from_path p = .ok st
      ↔ matchQTS (lastSegment p) = true ∧ st = ⟨lastSegment p, p, []⟩ := by
  unfold QTLStudy.from_path QTLStudy._validate_name
  cases hv : validate_name (lastSegment p) matchQTS with
  | error e =>
    constructor
    · intro h; exact Except.noConfusion h
    · rintro ⟨hm, -⟩
      rcases validate_name_error_iff.mp ⟨e, hv⟩ with h1 | h1
      · rw [h1, matchQTS_empty] at hm; exact Bool.noConfusion hm
      · rw [h1] at hm; exact Bool.noConfusion hm
  | ok a =>
    obtain ⟨rfl, hm⟩ := validate_name_matchQTS_ok_iff.mp hv
    constructor
    · intro h
      injection h with h2
      exact ⟨hm, h2.symm⟩
    · rintro ⟨-, rfl⟩; rfl

theorem study_from_path_error_iff {p : String} :
    (∃ e, QTLStudy.from_path p = .error e) ↔ matchQTS (lastSegment p) = false := by
  unfold QTLStudy.from_path QTLStudy._validate_name
  cases hv : validate_name (lastSegment p) matchQTS with
  | error e =>
    constructor
    · intro _
      rcases validate_name_error_iff.mp ⟨e, hv⟩ with h1 | h1
      · rw [h1, matchQTS_empty]
      · exact h1
    · intro _; exact ⟨e, rfl⟩
  | ok a =>
    obtain ⟨rfl, hm⟩ := validate_name_matchQTS_ok_iff.mp hv
    constructor
    · rintro ⟨e, h⟩; exact Except.noConfusion h
    · intro h; rw [hm] at h; exact Bool.noConfusion h

theorem prepare_study_eq_some_iff {fs : FS} {p : String} {st : QTLStudy} :
    _prepare_study_for_path fs p = some st
      ↔ matchQTS (lastSegment p) = true
        ∧ st = ⟨lastSegment p, p,
            (fs.ls p).filterMap (QTLDataset.from_path fs)⟩ := by
  unfold _prepare_study_for_path
  cases hv : QTLStudy.from_path p with
  | ok study =>
    obtain ⟨hm, rfl⟩ := study_from_path_ok_iff.mp hv
    constructor
    · intro h
      injection h with h2
      rw [get_datasets_eq] at h2
      exact ⟨hm, h2.symm⟩
    · rintro ⟨-, rfl⟩
      exact congrArg some (get_datasets_eq fs ⟨lastSegment p, p, []⟩)
  | error e =>
    constructor
    · intro h; exact Option.noConfusion h
    · rintro ⟨hm, -⟩
      have h := study_from_path_error_iff.mp ⟨e, hv⟩
      rw [h] at hm
      exact Bool.noConfusion hm

theorem prepare_study_eq_none_iff {fs : FS} {p : String} :
    _prepare_study_for_path fs p = none
      ↔ matchQTS (lastSegment p) = false := by
  unfold _prepare_study_for_path
  cases hv : QTLStudy.from_path p with
  | ok study =>
    obtain ⟨hm, rfl⟩ := study_from_path_ok_iff.mp hv
    constructor
    · intro h; exact Option.noConfusion h
    · intro h; rw [hm] at h; exact Bool.noConfusion h
  | error e =>
    constructor
    · intro _; exact study_from_path_error_iff.mp ⟨e, hv⟩
    · intro _; rfl

theorem dataset_validate_ok_iff {p r : String} :
    QTLDataset._validate_name p = .ok r ↔ (r = p ∧ matchQTD p = true) := by
  unfold QTLDataset._validate_name
  exact validate_name_matchQTD_ok_iff

theorem fromPathT_of_invalid {fs : FS} {path : String}
    (h : matchQTD (lastSegment path) = false) :
    QTLDataset.fromPathT fs path = (none, []) := by
  unfold QTLDataset.fromPathT
  cases hv : QTLDataset._validate_name (lastSegment path) with
  | error e => rfl
  | ok a =>
    obtain ⟨rfl, hm⟩ := dataset_validate_ok_iff.mp hv
    rw [h] at hm
    exact Bool.noConfusion hm

theorem fromPathT_of_valid {fs : FS} {path : String}
    (h : matchQTD (lastSegment path) = true) :
    QTLDataset.fromPathT fs path =
      (let dataset_id := lastSegment path
       let susie_cs_path := path ++ "/" ++ dataset_id ++ ".credible_sets.parquet"
       let susie_lbf_path := path ++ "/" ++ dataset_id ++ ".lbf_variable.parquet"
       if !fs.fsExists susie_cs_path then
         (none, [susie_cs_path])
       else if !fs.fsExists susie_lbf_path then
         (none, [susie_cs_path, susie_lbf_path])
       else
         (some ⟨dataset_id, susie_cs_path, susie_lbf_path⟩,
           [susie_cs_path, susie_lbf_path])) := by
  unfold QTLDataset.fromPathT
  cases hv : QTLDataset._validate_name (lastSegment path) with
  | error e =>
    obtain ⟨e', he⟩ : ∃ e', validate_name (lastSegment path) matchQTD = .error e' :=
      ⟨e, hv⟩
    rcases validate_name_error_iff.mp ⟨e', he⟩ with h1 | h1
    · rw [h1, matchQTD_empty] at h; exact Bool.noConfusion h
    · rw [h1] at h; exact Bool.noConfusion h
  | ok a =>
    obtain ⟨rfl, -⟩ := dataset_validate_ok_iff.mp hv
    rfl

theorem from_path_eq_some_iff {fs : FS} {path : String} {ds : QTLDataset} :
    QTLDataset.from_path fs path = some ds
      ↔ matchQTD (lastSegment path) = true
        ∧ fs.fsExists
            (path ++ "/" ++ lastSegment path ++ ".credible_sets.parquet") = true
        ∧ fs.fsExists
            (path ++ "/" ++ lastSegment path ++ ".lbf_variable.parquet") = true
        ∧ ds = ⟨lastSegment path,
            path ++ "/" ++ lastSegment path ++ ".credible_sets.parquet",
            path ++ "/" ++ lastSegment path ++ ".lbf_variable.parquet"⟩ := by
  unfold QTLDataset.from_path
  cases hm : matchQTD (lastSegment path) with
  | false =>
    rw [fromPathT_of_invalid hm]
    constructor
    · intro h; exact Option.noConfusion h
    · rintro ⟨h, -⟩; exact Bool.noConfusion h
  | true =>
    rw [fromPathT_of_valid hm]
    cases hcs : fs.fsExists (path ++ "/" ++ lastSegment path ++ ".credible_sets.parquet") with
    | false =>
      simp only [hcs, Bool.not_false, if_true]
      constructor
      · intro h; exact Option.noConfusion h
      · rintro ⟨-, h, -⟩; exact Bool.noConfusion h
    | true =>
      cases hlbf : fs.fsExists (path ++ "/" ++ lastSegment path ++ ".lbf_variable.parquet") with
      | false =>
        simp only [hcs, hlbf, Bool.not_true, Bool.not_false, if_false, if_true]
        constructor
        · intro h; exact Option.noConfusion h
        · rintro ⟨-, -, h, -⟩; exact Bool.noConfusion h
      | true =>
        simp only [hcs, hlbf, Bool.not_true, if_false]
        constructor
        · intro h
          injection h with h2
          exact ⟨trivial, trivial, trivial, h2.symm⟩
        · rintro ⟨-, -, -, rfl⟩; rfl

theorem from_path_local_eq_some_iff {fs : FS} {path : String} {ds : QTLDataset} :
    QTLDataset.from_path_local fs path = some ds
      ↔ matchQTD (lastSegment path) = true
        ∧ fs.fsExists
            (path ++ "/" ++ lastSegment path ++ ".credible_sets.parquet") = true
        ∧ fs.fsExists
            (path ++ "/" ++ lastSegment path ++ ".lbf_variable.parquet") = true
        ∧ ds = ⟨lastSegment path,
            lastThreeSegments
              (path ++ "/" ++ lastSegment path ++ ".credible_sets.parquet"),
            lastThreeSegments
              (path ++ "/" ++ lastSegment path ++ ".lbf_variable.parquet")⟩ := by
  unfold QTLDataset.from_path_local
  cases hv : QTLDataset._validate_name (lastSegment path) with
  | error e =>
    constructor
    · intro h; exact Option.noConfusion h
    · rintro ⟨hm, -⟩
      rcases validate_name_error_iff.mp ⟨e, hv⟩ with h1 | h1
      · rw [h1, matchQTD_empty] at hm; exact Bool.noConfusion hm
      · rw [h1] at hm; exact Bool.noConfusion hm
  | ok a =>
    obtain ⟨rfl, hm⟩ := dataset_validate_ok_iff.mp hv
    cases hcs : fs.fsExists (path ++ "/" ++ lastSegment path ++ ".credible_sets.parquet") with
    | false =>
      simp only [hcs, Bool.not_false, if_true]
      constructor
      · intro h; exact Option.noConfusion h
      · rintro ⟨-, h, -⟩; exact Bool.noConfusion h
    | true =>
      cases hlbf : fs.fsExists (path ++ "/" ++ lastSegment path ++ ".lbf_variable.parquet") with
      | false =>
        simp only [hcs, hlbf, Bool.not_true, Bool.not_false, if_false, if_true]
        constructor
        · intro h; exact Option.noConfusion h
        · rintro ⟨-, -, h, -⟩; exact Bool.noConfusion h
      | true =>
        simp only [hcs, hlbf, Bool.not_true, if_false]
        constructor
        · intro h
          injection h with h2
          exact ⟨hm, trivial, trivial, h2.symm⟩
        · rintro ⟨-, -, -, rfl⟩; rfl

theorem poolStep_of_none {α β : Type} {f : α → β} {xs : List α}
    {acc : List (Option β)} {i : Nat} (hx : xs[i]? = none) :
    poolStep f xs acc i = acc := by
  unfold poolStep
  rw [hx]

theorem poolStep_of_some {α β : Type} {f : α → β} {xs : List α}
    {acc : List (Option β)} {i : Nat} {x : α} (hx : xs[i]? = some x) :
    poolStep f xs acc i = acc.set i (some (f x)) := by
  unfold poolStep
  rw [hx]

theorem poolFold_getElem? {α β : Type} (f : α → β) (xs : List α) :
    ∀ (order : List Nat) (acc : List (Option β)), acc.length = xs.length →
      ∀ j : Nat,
        (order.foldl (poolStep f xs) acc)[j]?
          = if j ∈ order then (xs.map (fun x => some (f x)))[j]?
            else acc[j]? := by
  intro order
  induction order with
  | nil =>
    intro acc hlen j
    simp
  | cons i rest ih =>
    intro acc hlen j
    rw [List.foldl_cons]
    cases hx : xs[i]? with
    | none =>
      rw [poolStep_of_none hx, ih acc hlen j]
      by_cases hjr : j ∈ rest
      · rw [if_pos hjr, if_pos (List.mem_cons_of_mem i hjr)]
      · rw [if_neg hjr]
        by_cases hji : j = i
        · subst hji
          have hge : xs.length ≤ j := by
            rw [List.getElem?_eq_none_iff] at hx
            exact hx
          rw [if_pos (List.mem_cons_self j rest)]
          rw [List.getElem?_eq_none (show acc.length ≤ j by rw [hlen]; exact hge),
            List.getElem?_eq_none
              (show (List.map (fun x => some (f x)) xs).length ≤ j by
                rw [List.length_map]; exact hge)]
        · rw [if_neg (by rw [List.mem_cons]; rintro (h | h) <;> exact absurd h (by assumption))]
    | some x =>
      have hi : i < xs.length := by
        by_contra hge
        rw [List.getElem?_eq_none (by omega)] at hx
        exact Option.noConfusion hx
      rw [poolStep_of_some hx,
        ih (acc.set i (some (f x))) (by rw [List.length_set]; exact hlen) j]
      by_cases hjr : j ∈ rest
      · rw [if_pos hjr, if_pos (List.mem_cons_of_mem i hjr)]
      · rw [if_neg hjr]
        by_cases hji : j = i
        · subst hji
          rw [if_pos (List.mem_cons_self j rest)]
          rw [List.getElem?_set, if_pos rfl, if_pos (by rw [hlen]; exact hi)]
          rw [List.getElem?_map, hx]
          rfl
        · rw [if_neg (by rw [List.mem_cons]; rintro (h | h) <;> exact absurd h (by assumption))]
          rw [List.getElem?_set_ne (fun h => hji h.symm)]

theorem poolMapSlots_eq_map {α β : Type} (f : α → β) (xs : List α)
    (order : List Nat) (hcov : ∀ i, i < xs.length → i ∈ order) :
    poolMapSlots f xs order = xs.map (fun x => some (f x)) := by
  apply List.ext_getElem?
  intro j
  unfold poolMapSlots
  rw [poolFold_getElem? f xs order (List.replicate xs.length none)
    (List.length_replicate xs.length none) j]
  by_cases hj : j ∈ order
  · rw [if_pos hj]
  · rw [if_neg hj]
    have hge : xs.length ≤ j := by
      by_contra hlt
      exact hj (hcov j (by omega))
    rw [List.getElem?_eq_none (by rw [List.length_replicate]; exact hge),
      List.getElem?_eq_none (by rw [List.length_map]; exact hge)]

theorem poolMapCollect_eq_map {α β : Type} (f : α → β) (xs : List α)
    (order : List Nat) (hcov : ∀ i, i < xs.length → i ∈ order) :
    poolMapCollect f xs order = xs.map f := by
  unfold poolMapCollect
  rw [poolMapSlots_eq_map f xs order hcov, filterMap_id_map]
  exact congrFun (List.filterMap_eq_map f) xs

theorem mem_transform_iff {m : QTLManifest} {row : List (String × String)} :
    row ∈ m.transform
      ↔ ∃ study ∈ m.studies, ∃ ds ∈ study.datasets,
          row = [("study_id", study.id), ("dataset_id", ds.id),
                 ("susie_cs_path", ds.susie_cs_path),
                 ("susie_lbf_path", ds.susie_lbf_path)] := by
  unfold QTLManifest.transform
  rw [List.mem_flatMap]
  constructor
  · rintro ⟨study, hst, hrow⟩
    rw [List.mem_map] at hrow
    obtain ⟨ds, hds, hrow⟩ := hrow
    exact ⟨study, hst, ds, hds, hrow.symm⟩
  · rintro ⟨study, hst, ds, hds, rfl⟩
    exact ⟨study, hst, List.mem_map.mpr ⟨ds, hds, rfl⟩⟩

theorem transform_length (m : QTLManifest) :
    m.transform.length
      = (m.studies.map (fun st => st.datasets.length)).sum := by
  unfold QTLManifest.transform
  rw [List.length_flatMap]
  congr 1
  apply List.map_congr_left
  intro st _
  simp [List.length_map]

theorem length_filterMap_of_isSome {α β : Type} (f : α → Option β) :
    ∀ l : List α, (∀ x ∈ l, (f x).isSome) →
      (l.filterMap f).length = l.length := by
  intro l
  induction l with
  | nil => intro _; rfl
  | cons a t ih =>
    intro h
    rw [List.filterMap_cons]
    cases hx : f a with
    | none =>
      have := h a (List.mem_cons_self a t)
      rw [hx] at this
      exact Bool.noConfusion this
    | some b =>
      rw [List.length_cons, ih (fun x hx2 => h x (List.mem_cons_of_mem a hx2)),
        List.length_cons]

theorem sum_map_const_of {α : Type} (g : α → Nat) (M : Nat) :
    ∀ l : List α, (∀ x ∈ l, g x = M) →
      (l.map g).sum = l.length * M := by
  intro l
  induction l with
  | nil => intro _; simp
  | cons a t ih =>
    intro h
    rw [List.map_cons, List.sum_cons, h a (List.mem_cons_self a t),
      ih (fun x hx => h x (List.mem_cons_of_mem a hx)),
      List.length_cons, Nat.succ_mul, Nat.add_comm]

theorem filterMap_eq_filterMap_filter_ne {α β : Type} [DecidableEq α]
    (f : α → Option β) (p : α) (hp : f p = none) :
    ∀ l : List α,
      l.filterMap f = (l.filter (fun q => decide (q ≠ p))).filterMap f := by
  intro l
  induction l with
  | nil => rfl
  | cons a t ih =>
    rw [List.filter_cons]
    by_cases ha : a = p
    · subst ha
      rw [if_neg (by simp), List.filterMap_cons, hp]
      exact ih
    · rw [if_pos (by simpa using ha), List.filterMap_cons, List.filterMap_cons]
      cases f a with
      | none => exact ih
      | some b => rw [ih]

/-! ### Claim theorems -/

/-- C2: for every string `s` and pattern `p`, `validate_name s p` raises
`DatasetOrStudyNameError` if and only if `s` is empty or `s` does not
fully match `p` (the anchored fullmatch test is the abstract predicate
`pat`); when it does not raise it returns `s` unchanged. -/
theorem validate_name_contract (s : String) (pat : String → Bool) :
    ((∃ e, validate_name s pat = .error e) ↔ (s = "" ∨ pat s = false))
    ∧ (∀ r, validate_name s pat = .ok r → r = s)
    ∧ ((∃ e, validate_name s pat = .error e) ∨ validate_name s pat = .ok s) := by
  refine ⟨validate_name_error_iff, ?_, ?_⟩
  · intro r h
    exact (validate_name_ok_iff.mp h).1
  · cases hv : validate_name s pat with
    | error e => exact Or.inl ⟨e, rfl⟩
    | ok r =>
      obtain ⟨rfl, -, -⟩ := validate_name_ok_iff.mp hv
      exact Or.inr rfl

/-- Witness for C2 at the substring-containing name `xQTD1x`, which the
anchored pattern rejects even though `QTD1` occurs inside it. -/
theorem validate_name_contract_witness :
    (((∃ e, validate_name "xQTD1x" matchQTD = .error e)
        ↔ ("xQTD1x" = "" ∨ matchQTD "xQTD1x" = false))
      ∧ (∀ r, validate_name "xQTD1x" matchQTD = .ok r → r = "xQTD1x")
      ∧ ((∃ e, validate_name "xQTD1x" matchQTD = .error e)
          ∨ validate_name "xQTD1x" matchQTD = .ok "xQTD1x"))
    ∧ matchQTD "xQTD1x" = false ∧ matchQTD "QTD1" = true :=
  ⟨validate_name_contract "xQTD1x" matchQTD, by decide, by decide⟩

/-- C1: the dataset resolver is a total function into `Option` (a naming
failure is caught, never re-raised): it returns `none` when the trailing
segment fails dataset-name validation, `none` when either derived
artifact is missing, and `some` only with a fully-populated dataset whose
name was validated and whose two artifacts were both confirmed present.
The final conjunct states the same all-or-nothing property for the
local-path variant. -/
theorem dataset_resolver_total (fs : FS) (path : String) :
    (matchQTD (lastSegment path) = false → QTLDataset.from_path fs path = none)
    ∧ ((fs.fsExists (path ++ "/" ++ lastSegment path ++ ".credible_sets.parquet") = false
        ∨ fs.fsExists (path ++ "/" ++ lastSegment path ++ ".lbf_variable.parquet") = false)
        → QTLDataset.from_path fs path = none)
    ∧ (∀ ds, QTLDataset.from_path fs path = some ds →
        matchQTD (lastSegment path) = true
        ∧ fs.fsExists (path ++ "/" ++ lastSegment path ++ ".credible_sets.parquet") = true
        ∧ fs.fsExists (path ++ "/" ++ lastSegment path ++ ".lbf_variable.parquet") = true
        ∧ ds = ⟨lastSegment path,
            path ++ "/" ++ lastSegment path ++ ".credible_sets.parquet",
            path ++ "/" ++ lastSegment path ++ ".lbf_variable.parquet"⟩)
    ∧ (∀ ds, QTLDataset.from_path_local fs path = some ds →
        matchQTD (lastSegment path) = true
        ∧ fs.fsExists (path ++ "/" ++ lastSegment path ++ ".credible_sets.parquet") = true
        ∧ fs.fsExists (path ++ "/" ++ lastSegment path ++ ".lbf_variable.parquet") = true) := by
  refine ⟨?_, ?_, ?_, ?_⟩
  · intro hbad
    cases h : QTLDataset.from_path fs path with
    | none => rfl
    | some ds =>
      obtain ⟨hm, -, -, -⟩ := from_path_eq_some_iff.mp h
      rw [hbad] at hm
      exact Bool.noConfusion hm
  · intro hmiss
    cases h : QTLDataset.from_path fs path with
    | none => rfl
    | some ds =>
      obtain ⟨-, hcs, hlbf, -⟩ := from_path_eq_some_iff.mp h
      rcases hmiss with hm | hm
      · rw [hcs] at hm; exact Bool.noConfusion hm
      · rw [hlbf] at hm; exact Bool.noConfusion hm
  · intro ds h
    exact from_path_eq_some_iff.mp h
  · intro ds h
    obtain ⟨h1, h2, h3, -⟩ := from_path_local_eq_some_iff.mp h
    exact ⟨h1, h2, h3⟩

/-- Witness for C1: on the demo backend, resolving `root/QTS1/QTD1`
succeeds, and C1's success case yields the validated name and both
confirmed artifacts. -/
theorem dataset_resolver_total_witness :
    matchQTD (lastSegment "root/QTS1/QTD1") = true
    ∧ demoFS.fsExists
        ("root/QTS1/QTD1" ++ "/" ++ lastSegment "root/QTS1/QTD1"
          ++ ".credible_sets.parquet") = true
    ∧ demoFS.fsExists
        ("root/QTS1/QTD1" ++ "/" ++ lastSegment "root/QTS1/QTD1"
          ++ ".lbf_variable.parquet") = true
    ∧ (⟨"QTD1", "root/QTS1/QTD1/QTD1.credible_sets.parquet",
          "root/QTS1/QTD1/QTD1.lbf_variable.parquet"⟩ : QTLDataset)
        = ⟨lastSegment "root/QTS1/QTD1",
            "root/QTS1/QTD1" ++ "/" ++ lastSegment "root/QTS1/QTD1"
              ++ ".credible_sets.parquet",
            "root/QTS1/QTD1" ++ "/" ++ lastSegment "root/QTS1/QTD1"
              ++ ".lbf_variable.parquet"⟩ :=
  (dataset_resolver_total demoFS "root/QTS1/QTD1").2.2.1
    ⟨"QTD1", "root/QTS1/QTD1/QTD1.credible_sets.parquet",
      "root/QTS1/QTD1/QTD1.lbf_variable.parquet"⟩ (by decide)

/-- C3: a child whose trailing segment fails study-name validation makes
`QTLStudy.from_path` raise `DatasetOrStudyNameError`; the manifest
builder's fan-out closure converts that error to `none`, and the
resulting manifest equals the one built from the remaining siblings
alone — the build itself is a total function, so no error propagates. -/
theorem invalid_study_excluded (fs : FS) (root p : String)
    (hbad : matchQTS (lastSegment p) = false) :
    (∃ e, QTLStudy.from_path p = .error e)
    ∧ _prepare_study_for_path fs p = none
    ∧ (QTLManifest.from_gcs_path fs root).studies
        = ((fs.ls root).filter (fun q => decide (q ≠ p))).filterMap
            (_prepare_study_for_path fs) := by
  refine ⟨study_from_path_error_iff.mpr hbad,
    prepare_study_eq_none_iff.mpr hbad, ?_⟩
  rw [from_gcs_path_studies]
  exact filterMap_eq_filterMap_filter_ne _ p
    (prepare_study_eq_none_iff.mpr hbad) _

/-- Witness for C3 at the invalidly named sibling `root/bad` of the demo
backend. -/
theorem invalid_study_excluded_witness :
    (∃ e, QTLStudy.from_path "root/bad" = .error e)
    ∧ _prepare_study_for_path demoFS "root/bad" = none
    ∧ (QTLManifest.from_gcs_path demoFS "root").studies
        = ((demoFS.ls "root").filter (fun q => decide (q ≠ "root/bad"))).filterMap
            (_prepare_study_for_path demoFS) :=
  invalid_study_excluded demoFS "root" "root/bad" (by decide)

/-- C4: for every completion order of the worker-pool tasks that runs
every task, the collected fan-out result equals the input-order map, so
`Manifest.studies` is the root listing restricted to the surviving
entries in listing order; and each study's datasets are its child listing
restricted to the non-absent datasets, in listing order. -/
theorem manifest_order_preserved (fs : FS) (root : String) (order : List Nat)
    (hcov : ∀ i, i < (fs.ls root).length → i ∈ order) :
    (poolMapCollect (_prepare_study_for_path fs) (fs.ls root) order).filterMap
        (fun o => o)
      = (QTLManifest.from_gcs_path fs root).studies
    ∧ (QTLManifest.from_gcs_path fs root).studies
      = (fs.ls root).filterMap (_prepare_study_for_path fs)
    ∧ ∀ st ∈ (QTLManifest.from_gcs_path fs root).studies,
        st.datasets = (fs.ls st.path).filterMap (QTLDataset.from_path fs) := by
  have h2 := from_gcs_path_studies fs root
  refine ⟨?_, h2, ?_⟩
  · rw [poolMapCollect_eq_map _ _ _ hcov, filterMap_id_map, h2]
  · intro st hst
    rw [h2, List.mem_filterMap] at hst
    obtain ⟨p, hp, hprep⟩ := hst
    obtain ⟨hm, rfl⟩ := prepare_study_eq_some_iff.mp hprep
    rfl

/-- Witness for C4: the demo backend's four root children under the
scrambled completion order `[3, 1, 0, 2]`. -/
theorem manifest_order_preserved_witness :
    (poolMapCollect (_prepare_study_for_path demoFS) (demoFS.ls "root")
        [3, 1, 0, 2]).filterMap (fun o => o)
      = (QTLManifest.from_gcs_path demoFS "root").studies
    ∧ (QTLManifest.from_gcs_path demoFS "root").studies
      = (demoFS.ls "root").filterMap (_prepare_study_for_path demoFS)
    ∧ ∀ st ∈ (QTLManifest.from_gcs_path demoFS "root").studies,
        st.datasets = (demoFS.ls st.path).filterMap
          (QTLDataset.from_path demoFS) :=
  manifest_order_preserved demoFS "root" [3, 1, 0, 2] (by decide)

/-- C7: a validly named study whose children yield no resolvable dataset
is still retained in the manifest as a study with an empty dataset
sequence. -/
theorem empty_study_retained (fs : FS) (root p : String)
    (hmem : p ∈ fs.ls root)
    (hok : matchQTS (lastSegment p) = true)
    (hempty : (fs.ls p).filterMap (QTLDataset.from_path fs) = []) :
    (⟨lastSegment p, p, []⟩ : QTLStudy)
      ∈ (QTLManifest.from_gcs_path fs root).studies := by
  rw [from_gcs_path_studies, List.mem_filterMap]
  refine ⟨p, hmem, ?_⟩
  rw [prepare_study_eq_some_iff]
  exact ⟨hok, by rw [hempty]⟩

/-- Witness for C7 at the childless study `root/QTS9` of the demo
backend. -/
theorem empty_study_retained_witness :
    (⟨lastSegment "root/QTS9", "root/QTS9", []⟩ : QTLStudy)
      ∈ (QTLManifest.from_gcs_path demoFS "root").studies :=
  empty_study_retained demoFS "root" "root/QTS9" (by decide) (by decide)
    (by decide)

/-- C5: on a root with validly named studies, each with `M` children all
resolving to datasets, the manifest has one study per root child and the
flat record set has `N × M` rows; every row's column order is
`study_id, dataset_id, susie_cs_path, susie_lbf_path` (the source field
names of the spec's `credible_sets_path` / `lbf_variable_path`). -/
theorem manifest_counts_and_columns (fs : FS) (root : String) (M : Nat)
    (hstudy : ∀ p ∈ fs.ls root, matchQTS (lastSegment p) = true)
    (hM : ∀ p ∈ fs.ls root, (fs.ls p).length = M)
    (hds : ∀ p ∈ fs.ls root, ∀ q ∈ fs.ls p,
      (QTLDataset.from_path fs q).isSome) :
    (QTLManifest.from_gcs_path fs root).studies.length = (fs.ls root).length
    ∧ (QTLManifest.from_gcs_path fs root).transform.length
        = (fs.ls root).length * M
    ∧ ∀ row ∈ (QTLManifest.from_gcs_path fs root).transform,
        row.map Prod.fst
          = ["study_id", "dataset_id", "susie_cs_path", "susie_lbf_path"] := by
  have hprep : ∀ p ∈ fs.ls root, (_prepare_study_for_path fs p).isSome := by
    intro p hp
    have h := (@prepare_study_eq_some_iff fs p
      ⟨lastSegment p, p, (fs.ls p).filterMap (QTLDataset.from_path fs)⟩).mpr
      ⟨hstudy p hp, rfl⟩
    rw [h]
    rfl
  have hN : (QTLManifest.from_gcs_path fs root).studies.length
      = (fs.ls root).length := by
    rw [from_gcs_path_studies]
    exact length_filterMap_of_isSome _ _ hprep
  have hstlen : ∀ st ∈ (QTLManifest.from_gcs_path fs root).studies,
      st.datasets.length = M := by
    intro st hst
    rw [from_gcs_path_studies, List.mem_filterMap] at hst
    obtain ⟨p, hp, hprep2⟩ := hst
    obtain ⟨-, rfl⟩ := prepare_study_eq_some_iff.mp hprep2
    show ((fs.ls p).filterMap (QTLDataset.from_path fs)).length = M
    rw [length_filterMap_of_isSome _ _ (hds p hp)]
    exact hM p hp
  refine ⟨hN, ?_, ?_⟩
  · rw [transform_length, sum_map_const_of _ M _ hstlen, hN]
  · intro row hrow
    rw [mem_transform_iff] at hrow
    obtain ⟨study, -, ds, -, rfl⟩ := hrow
    rfl

/-- Witness for C5: the uniform 2 × 2 backend. -/
theorem manifest_counts_and_columns_witness :
    (QTLManifest.from_gcs_path uniformFS "root").studies.length
        = (uniformFS.ls "root").length
    ∧ (QTLManifest.from_gcs_path uniformFS "root").transform.length
        = (uniformFS.ls "root").length * 2
    ∧ ∀ row ∈ (QTLManifest.from_gcs_path uniformFS "root").transform,
        row.map Prod.fst
          = ["study_id", "dataset_id", "susie_cs_path", "susie_lbf_path"] :=
  manifest_counts_and_columns uniformFS "root" 2 (by decide) (by decide)
    (by decide)

/-- C6: when the trailing segment passes validation, every existence
check targets one of the two derived artifact locations
`{path}/{id}.credible_sets.parquet` and `{path}/{id}.lbf_variable.parquet`
(the full pair, or only the first when the check short-circuits); the
object-store variant stores these paths unchanged in the constructed
dataset, the local-path variant stores them truncated to their final
three slash-separated segments. -/
theorem artifact_paths_derived (fs : FS) (path : String)
    (h : matchQTD (lastSegment path) = true) :
    ((QTLDataset.fromPathT fs path).2
        = [path ++ "/" ++ lastSegment path ++ ".credible_sets.parquet",
           path ++ "/" ++ lastSegment path ++ ".lbf_variable.parquet"]
      ∨ (QTLDataset.fromPathT fs path).2
        = [path ++ "/" ++ lastSegment path ++ ".credible_sets.parquet"])
    ∧ (∀ ds, QTLDataset.from_path fs path = some ds →
        ds.susie_cs_path
            = path ++ "/" ++ lastSegment path ++ ".credible_sets.parquet"
        ∧ ds.susie_lbf_path
            = path ++ "/" ++ lastSegment path ++ ".lbf_variable.parquet")
    ∧ (∀ ds, QTLDataset.from_path_local fs path = some ds →
        ds.susie_cs_path
            = lastThreeSegments
                (path ++ "/" ++ lastSegment path ++ ".credible_sets.parquet")
        ∧ ds.susie_lbf_path
            = lastThreeSegments
                (path ++ "/" ++ lastSegment path ++ ".lbf_variable.parquet")) := by
  refine ⟨?_, ?_, ?_⟩
  · rw [fromPathT_of_valid h]
    cases hcs : fs.fsExists
        (path ++ "/" ++ lastSegment path ++ ".credible_sets.parquet") with
    | false =>
      right
      simp [hcs]
    | true =>
      left
      cases hlbf : fs.fsExists
          (path ++ "/" ++ lastSegment path ++ ".lbf_variable.parquet") with
      | false => simp [hcs, hlbf]
      | true => simp [hcs, hlbf]
  · intro ds h2
    obtain ⟨-, -, -, rfl⟩ := from_path_eq_some_iff.mp h2
    exact ⟨rfl, rfl⟩
  · intro ds h2
    obtain ⟨-, -, -, rfl⟩ := from_path_local_eq_some_iff.mp h2
    exact ⟨rfl, rfl⟩

/-- Witness for C6: resolving `root/QTS1/QTD1` on the demo backend; the
success cases are exercised through C6's second conjunct. -/
theorem artifact_paths_derived_witness :
    ((QTLDataset.fromPathT demoFS "root/QTS1/QTD1").2
        = ["root/QTS1/QTD1" ++ "/" ++ lastSegment "root/QTS1/QTD1"
             ++ ".credible_sets.parquet",
           "root/QTS1/QTD1" ++ "/" ++ lastSegment "root/QTS1/QTD1"
             ++ ".lbf_variable.parquet"]
      ∨ (QTLDataset.fromPathT demoFS "root/QTS1/QTD1").2
        = ["root/QTS1/QTD1" ++ "/" ++ lastSegment "root/QTS1/QTD1"
             ++ ".credible_sets.parquet"])
    ∧ (∀ ds, QTLDataset.from_path demoFS "root/QTS1/QTD1" = some ds →
        ds.susie_cs_path
            = "root/QTS1/QTD1" ++ "/" ++ lastSegment "root/QTS1/QTD1"
                ++ ".credible_sets.parquet"
        ∧ ds.susie_lbf_path
            = "root/QTS1/QTD1" ++ "/" ++ lastSegment "root/QTS1/QTD1"
                ++ ".lbf_variable.parquet")
    ∧ (∀ ds, QTLDataset.from_path_local demoFS "root/QTS1/QTD1" = some ds →
        ds.susie_cs_path
            = lastThreeSegments
                ("root/QTS1/QTD1" ++ "/" ++ lastSegment "root/QTS1/QTD1"
                  ++ ".credible_sets.parquet")
        ∧ ds.susie_lbf_path
            = lastThreeSegments
                ("root/QTS1/QTD1" ++ "/" ++ lastSegment "root/QTS1/QTD1"
                  ++ ".lbf_variable.parquet")) :=
  artifact_paths_derived demoFS "root/QTS1/QTD1" (by decide)

/-- C8: the flat record set is a pure function of `studies` — equal study
sequences give equal record sets — and two builds over backends that give
the same listing and existence answers yield identical record sets. -/
theorem build_deterministic :
    (∀ m₁ m₂ : QTLManifest, m₁.studies = m₂.studies →
      m₁.transform = m₂.transform)
    ∧ (∀ (fs₁ fs₂ : FS) (root : String),
        (∀ p, fs₁.ls p = fs₂.ls p) →
        (∀ p, fs₁.fsExists p = fs₂.fsExists p) →
        (QTLManifest.from_gcs_path fs₁ root).transform
          = (QTLManifest.from_gcs_path fs₂ root).transform) := by
  constructor
  · intro m₁ m₂ h
    unfold QTLManifest.transform
    rw [h]
  · intro fs₁ fs₂ root hls hex
    have hfs : fs₁ = fs₂ := by
      cases fs₁
      cases fs₂
      congr 1
      · funext p
        exact hls p
      · funext p
        exact hex p
    rw [hfs]

/-- Witness for C8: two builds over the demo backend agree. -/
theorem build_deterministic_witness :
    (QTLManifest.from_gcs_path demoFS "root").transform
      = (QTLManifest.from_gcs_path demoFS "root").transform :=
  build_deterministic.2 demoFS demoFS "root" (fun _ => rfl) (fun _ => rfl)

/-- C9 counterexample: on a backend where the first derived artifact is
absent, a call whose candidate name passes validation issues only ONE
existence query, not two — the Python `or` short-circuits after
`not fs.exists(cs)` is already true. -/
theorem two_existence_queries_refuted :
    QTLDataset._validate_name (lastSegment "QTD1") = .ok "QTD1"
    ∧ (QTLDataset.fromPathT absentFS "QTD1").2.length = 1
    ∧ ¬ (QTLDataset.fromPathT absentFS "QTD1").2.length = 2 := by
  decide

/-- C9 (amended): a resolver call whose candidate name passes validation
issues exactly two existence queries when the first derived artifact
exists, and exactly one when it is missing (the disjunction
short-circuits before the second query). -/
theorem existence_queries_count (fs : FS) (path : String)
    (h : matchQTD (lastSegment path) = true) :
    (QTLDataset.fromPathT fs path).2
      = (if fs.fsExists
            (path ++ "/" ++ lastSegment path ++ ".credible_sets.parquet")
         then [path ++ "/" ++ lastSegment path ++ ".credible_sets.parquet",
               path ++ "/" ++ lastSegment path ++ ".lbf_variable.parquet"]
         else [path ++ "/" ++ lastSegment path ++ ".credible_sets.parquet"])
    ∧ (QTLDataset.fromPathT fs path).2.length
      = (if fs.fsExists
            (path ++ "/" ++ lastSegment path ++ ".credible_sets.parquet")
         then 2 else 1) := by
  have htr : (QTLDataset.fromPathT fs path).2
      = (if fs.fsExists
            (path ++ "/" ++ lastSegment path ++ ".credible_sets.parquet")
         then [path ++ "/" ++ lastSegment path ++ ".credible_sets.parquet",
               path ++ "/" ++ lastSegment path ++ ".lbf_variable.parquet"]
         else [path ++ "/" ++ lastSegment path ++ ".credible_sets.parquet"]) := by
    rw [fromPathT_of_valid h]
    cases hcs : fs.fsExists
        (path ++ "/" ++ lastSegment path ++ ".credible_sets.parquet") with
    | false => simp [hcs]
    | true =>
      cases hlbf : fs.fsExists
          (path ++ "/" ++ lastSegment path ++ ".lbf_variable.parquet") with
      | false => simp [hcs, hlbf]
      | true => simp [hcs, hlbf]
  refine ⟨htr, ?_⟩
  rw [htr]
  cases hcs : fs.fsExists
      (path ++ "/" ++ lastSegment path ++ ".credible_sets.parquet") with
  | false => simp [hcs]
  | true => simp [hcs]

/-- Witness for the amended C9: on the demo backend, resolving
`root/QTS1/QTD1` (first artifact present) issues the two-element query
trace. -/
theorem existence_queries_count_witness :
    (QTLDataset.fromPathT demoFS "root/QTS1/QTD1").2
      = (if demoFS.fsExists
            ("root/QTS1/QTD1" ++ "/" ++ lastSegment "root/QTS1/QTD1"
              ++ ".credible_sets.parquet")
         then ["root/QTS1/QTD1" ++ "/" ++ lastSegment "root/QTS1/QTD1"
                 ++ ".credible_sets.parquet",
               "root/QTS1/QTD1" ++ "/" ++ lastSegment "root/QTS1/QTD1"
                 ++ ".lbf_variable.parquet"]
         else ["root/QTS1/QTD1" ++ "/" ++ lastSegment "root/QTS1/QTD1"
                 ++ ".credible_sets.parquet"])
    ∧ (QTLDataset.fromPathT demoFS "root/QTS1/QTD1").2.length
      = (if demoFS.fsExists
            ("root/QTS1/QTD1" ++ "/" ++ lastSegment "root/QTS1/QTD1"
              ++ ".credible_sets.parquet")
         then 2 else 1) :=
  existence_queries_count demoFS "root/QTS1/QTD1" (by decide)

/-- C10: every row of the flat record set carries a study id fully
matching `^QTS\d+$` and a dataset id fully matching `^QTD\d+$`: ids enter
the structures only through validation and are never altered
afterwards. -/
theorem transform_ids_validated (fs : FS) (root : String) :
    ∀ row ∈ (QTLManifest.from_gcs_path fs root).transform,
      ∃ sid did csp lbfp,
        row = [("study_id", sid), ("dataset_id", did),
               ("susie_cs_path", csp), ("susie_lbf_path", lbfp)]
        ∧ matchQTS sid = true ∧ matchQTD did = true := by
  intro row hrow
  rw [mem_transform_iff] at hrow
  obtain ⟨study, hst, ds, hds, rfl⟩ := hrow
  rw [from_gcs_path_studies, List.mem_filterMap] at hst
  obtain ⟨p, hp, hprep⟩ := hst
  obtain ⟨hm, rfl⟩ := prepare_study_eq_some_iff.mp hprep
  refine ⟨lastSegment p, ds.id, ds.susie_cs_path, ds.susie_lbf_path, rfl,
    hm, ?_⟩
  have hds2 : ds ∈ (fs.ls p).filterMap (QTLDataset.from_path fs) := hds
  rw [List.mem_filterMap] at hds2
  obtain ⟨q, hq, hdq⟩ := hds2
  obtain ⟨hmq, -, -, rfl⟩ := from_path_eq_some_iff.mp hdq
  exact hmq

/-- Witness for C10 at the first row of the demo backend's manifest. -/
theorem transform_ids_validated_witness :
    ∃ sid did csp lbfp,
      ([("study_id", "QTS1"), ("dataset_id", "QTD1"),
        ("susie_cs_path", "root/QTS1/QTD1/QTD1.credible_sets.parquet"),
        ("susie_lbf_path", "root/QTS1/QTD1/QTD1.lbf_variable.parquet")]
        : List (String × String))
        = [("study_id", sid), ("dataset_id", did),
           ("susie_cs_path", csp), ("susie_lbf_path", lbfp)]
      ∧ matchQTS sid = true ∧ matchQTD did = true :=
  transform_ids_validated demoFS "root" _ (by decide)
